import Mathlib

/-!
Verification of the python-quiz repository's room/quiz core against its
design specification. The repository ships the frontend (Astro + Alpine.js
TypeScript); the backend Room Coordinator, Session Store, Scoring Engine
and Leaderboard Cache are not part of the source tree, so those components
are modelled from the specification text, as marked on each definition.
Frontend utilities (`shuffleArray`, `validateJoinForm`, `QuizWebSocket`)
are embedded directly from the TypeScript source.
-/

/-- Round-half-to-even on rationals. Modelled from the spec: the Scoring
Engine computes `points = round(max_points * time_bonus * streak_multiplier)`;
the spec's own worked scenario rounds 412.5 to 412, which is Python's
banker's rounding (round half to even). -/
def roundHalfEven (x : ℚ) : ℤ :=
  if x - ⌊x⌋ < 1/2 then ⌊x⌋
  else if 1/2 < x - ⌊x⌋ then ⌊x⌋ + 1
  else if ⌊x⌋ % 2 = 0 then ⌊x⌋ else ⌊x⌋ + 1

/-- Clamp a rational to an interval. Modelled from the spec: response_time
is clamped to `[0, time_limit]` before the scoring formula. -/
def clampQ (x lo hi : ℚ) : ℚ := max lo (min x hi)

/-- Modelled from the spec: `time_bonus = max(0.5, 1.0 - 0.5 *
(response_time / time_limit))`, with response_time clamped to
`[0, time_limit]` first. -/
def timeBonus (responseTime timeLimit : ℚ) : ℚ :=
  max (1/2) (1 - (1/2) * (clampQ responseTime 0 timeLimit / timeLimit))

/-- Modelled from the spec: `streak_multiplier = min(1.5, 1.0 + 0.1 * streak)`
where `streak` counts consecutive correct answers before this one. -/
def streakMultiplier (streak : ℕ) : ℚ :=
  min (3/2) (1 + (streak : ℚ) / 10)

/-- Modelled from the spec: the Scoring Engine's
`points = round(max_points * time_bonus * streak_multiplier)`. -/
def scoringPoints (maxPoints : ℕ) (responseTime timeLimit : ℚ) (streak : ℕ) : ℤ :=
  roundHalfEven ((maxPoints : ℚ) * timeBonus responseTime timeLimit * streakMultiplier streak)

/-- Room lifecycle status. Modelled from the spec: enum
`idle`, `active`, `over`, `complete`. -/
inductive Status where
  | idle
  | active
  | over
  | complete
deriving DecidableEq, Repr

/-- Modelled from the spec: a Participant has an id, nickname, current
score, and current streak; join order is the position in the room's
participant list. -/
structure Participant where
  pid : ℕ
  nickname : String
  score : ℤ
  streak : ℕ
deriving DecidableEq, Repr

/-- Modelled from the spec: a recorded Answer (validation metadata fields
beyond correctness and points are elided; no claim concerns them). -/
structure Answer where
  pid : ℕ
  qIndex : ℕ
  text : String
  responseTime : ℚ
  isCorrect : Bool
  pointsEarned : ℤ
deriving DecidableEq, Repr

/-- Modelled from the spec: one line of a LeaderboardSnapshot. -/
structure LBEntry where
  pid : ℕ
  nickname : String
  score : ℤ
  streak : ℕ
  rank : ℕ
deriving DecidableEq, Repr

/-- Modelled from the spec: a Room owns its participants, recorded answers
and the explicitly refreshed leaderboard cache. -/
structure Room where
  code : String
  hostSecret : String
  totalQuestions : ℕ
  currentIndex : ℕ
  status : Status
  participants : List Participant
  answers : List Answer
  leaderboard : List LBEntry
  nextPid : ℕ
deriving DecidableEq, Repr

/-- Modelled from the spec: the error taxonomy of §7. -/
inductive QuizError where
  | NotFoundError
  | AuthError
  | StateError
  | ValidationError
deriving DecidableEq, Repr

/-- Modelled from the spec: the broadcast events of §6. -/
inductive Event where
  | participantJoined (pid : ℕ)
  | questionStarted (index : ℕ) (timeLimit : ℚ)
  | questionChanged (index : ℕ)
  | questionTimeout (index : ℕ)
  | quizComplete
deriving DecidableEq, Repr

/-- Result returned to the submitting participant. Modelled from the spec:
correctness, points earned, new total score, new streak. -/
structure AnswerResult where
  isCorrect : Bool
  pointsEarned : ℤ
  newScore : ℤ
  newStreak : ℕ
deriving DecidableEq, Repr

/-- Stable insertion (descending by score) used by the leaderboard refresh;
an element is placed before the first strictly-lower-or-equal score it can
precede without passing an equal score, so ties keep list (join) order. -/
def insertDesc (p : Participant) : List Participant → List Participant
  | [] => [p]
  | q :: qs => if q.score ≤ p.score then p :: q :: qs else q :: insertDesc p qs

/-- Stable sort of participants by score descending, ties by join order. -/
def sortDesc (ps : List Participant) : List Participant :=
  ps.foldr insertDesc []

/-- Dense-rank assignment walk over a score-sorted participant list.
`rank` and `prev` are the rank and score of the previously emitted entry. -/
def ranksAux (rank : ℕ) (prev : ℤ) : List Participant → List LBEntry
  | [] => []
  | p :: ps =>
    ⟨p.pid, p.nickname, p.score, p.streak, if p.score = prev then rank else rank + 1⟩ ::
      ranksAux (if p.score = prev then rank else rank + 1) p.score ps

/-- The (rank, score) state of the dense-rank walk after consuming a
participant list. -/
def lastState (rank : ℕ) (prev : ℤ) : List Participant → ℕ × ℤ
  | [] => (rank, prev)
  | p :: ps => lastState (if p.score = prev then rank else rank + 1) p.score ps

/-- Assigns dense ranks to an already score-sorted participant list,
starting at rank 1. -/
def rankAll : List Participant → List LBEntry
  | [] => []
  | p :: rest => ⟨p.pid, p.nickname, p.score, p.streak, 1⟩ :: ranksAux 1 p.score rest

/-- Modelled from the spec: `refresh(room_code)` recomputes the snapshot
entirely from Participant scores, assigning dense ranks with ties broken
by join order. -/
def refreshLB (ps : List Participant) : List LBEntry :=
  rankAll (sortDesc ps)

/-- Rank given to the zero-score entry appended on join, continuing the
dense ranking of the cached snapshot. Modelled from the spec:
`on_join` appends a zero-score entry without a full refresh. -/
def onJoinRank (lb : List LBEntry) : ℕ :=
  match lb.getLast? with
  | none => 1
  | some e => if e.score = 0 then e.rank else e.rank + 1

/-- Modelled from the spec: `create(quiz_id, total_questions)` fails with
`ValidationError` if `total_questions ≤ 0`, else yields a fresh idle room
at index 0. Room code and host secret generation are external inputs. -/
def createRoom (_quizId code hostSecret : String) (totalQuestions : ℤ) :
    Except QuizError Room :=
  if totalQuestions ≤ 0 then .error .ValidationError
  else .ok ⟨code, hostSecret, totalQuestions.toNat, 0, .idle, [], [], [], 0⟩

/-- Modelled from the spec: `join` adds a participant with score 0 and
streak 0, appends a zero-score leaderboard entry immediately, and is
allowed in any room status. -/
def joinRoom (r : Room) (nick : String) : Room × Participant × Event :=
  let p : Participant := ⟨r.nextPid, nick, 0, 0⟩
  ({ r with
      participants := r.participants ++ [p],
      leaderboard := r.leaderboard ++ [⟨p.pid, nick, 0, 0, onJoinRank r.leaderboard⟩],
      nextPid := r.nextPid + 1 },
   p, .participantJoined p.pid)

/-- Modelled from the spec: `start_question` fails with `AuthError` on
secret mismatch, `StateError` if the status is `active` or `complete` or
the index does not match the current index; otherwise the room becomes
`active` and `question_started` is emitted. -/
def startQuestion (r : Room) (secret : String) (timeLimit : ℚ)
    (_correctAnswers : List String) (qIndex : ℕ) : Except QuizError (Room × Event) :=
  if secret ≠ r.hostSecret then .error .AuthError
  else if r.status = .active ∨ r.status = .complete then .error .StateError
  else if qIndex ≠ r.currentIndex then .error .StateError
  else .ok ({ r with status := .active }, .questionStarted qIndex timeLimit)

/-- Modelled from the spec: `submit_answer` fails with `NotFoundError` for
an unknown participant, is idempotent for a repeat submission on the same
question (returns the previously recorded result, never re-scores), and
otherwise requires the question to be running (the §5 state check). On
accept it scores and increments the streak; on reject it resets the streak.
It records the Answer and does not touch the leaderboard cache. -/
def submitAnswer (validate : String → List String → String → Bool) (r : Room)
    (pid : ℕ) (text : String) (responseTime timeLimit : ℚ) (qIndex : ℕ)
    (correctAnswers : List String) (qType : String) (maxPoints : ℕ) :
    Except QuizError (Room × AnswerResult) :=
  match r.participants.find? (fun p => p.pid == pid) with
  | none => .error .NotFoundError
  | some p =>
    match r.answers.find? (fun a => a.pid == pid && a.qIndex == qIndex) with
    | some a => .ok (r, ⟨a.isCorrect, a.pointsEarned, p.score, p.streak⟩)
    | none =>
      if r.status = .active ∧ qIndex = r.currentIndex then
        .ok ({ r with
                participants := r.participants.map (fun q =>
                  if q.pid == pid then
                    { p with
                        score := p.score +
                          (if validate text correctAnswers qType then
                            scoringPoints maxPoints responseTime timeLimit p.streak
                           else 0),
                        streak := if validate text correctAnswers qType then p.streak + 1 else 0 }
                  else q),
                answers := r.answers ++
                  [⟨pid, qIndex, text, responseTime, validate text correctAnswers qType,
                    if validate text correctAnswers qType then
                      scoringPoints maxPoints responseTime timeLimit p.streak
                    else 0⟩] },
             ⟨validate text correctAnswers qType,
              (if validate text correctAnswers qType then
                scoringPoints maxPoints responseTime timeLimit p.streak
               else 0),
              p.score +
                (if validate text correctAnswers qType then
                  scoringPoints maxPoints responseTime timeLimit p.streak
                 else 0),
              if validate text correctAnswers qType then p.streak + 1 else 0⟩)
      else .error .StateError

/-- Modelled from the spec: `timeout` fires only for the active question,
sets the status to `over`, refreshes the leaderboard cache from current
participant scores and emits `question_timeout`. -/
def timeoutRoom (r : Room) : Except QuizError (Room × Event) :=
  if r.status = .active then
    .ok ({ r with status := .over, leaderboard := refreshLB r.participants },
         .questionTimeout r.currentIndex)
  else .error .StateError

/-- Modelled from the spec: `advance` fails with `AuthError` on secret
mismatch, `StateError` when the status is not `over`; otherwise it
increments the question index first and only then checks completion. -/
def advance (r : Room) (secret : String) : Except QuizError (Room × Event) :=
  if secret ≠ r.hostSecret then .error .AuthError
  else if r.status ≠ .over then .error .StateError
  else if r.totalQuestions ≤ r.currentIndex + 1 then
    .ok ({ r with currentIndex := r.currentIndex + 1, status := .complete,
                  leaderboard := refreshLB r.participants }, .quizComplete)
  else
    .ok ({ r with currentIndex := r.currentIndex + 1, status := .idle },
         .questionChanged (r.currentIndex + 1))

/-- Modelled from the spec: the store-level `join(room_code, nickname)`
fails with `NotFoundError` exactly when the room code is unknown. -/
def joinStore (st : List Room) (code nick : String) :
    Except QuizError (List Room × Participant) :=
  match st.find? (fun r => r.code == code) with
  | none => .error .NotFoundError
  | some r =>
    let res := joinRoom r nick
    .ok (st.map (fun q => if q.code == code then res.1 else q), res.2.1)

/-- Frontend error surfacing for the join request (`join-room.ts`): a 404
response from the join endpoint is shown as a room-not-found message. -/
def joinRoomClient (httpStatus : ℕ) (roomCode : String) : Option String :=
  if 200 ≤ httpStatus ∧ httpStatus < 300 then none
  else if httpStatus = 404 then
    some ("Room \"" ++ roomCode ++ "\" not found. Check the code with your host.")
  else some "Failed to join room"

/-- Rooms reachable through the Room Coordinator's operations, starting
from a successfully created room. -/
inductive Reachable : Room → Prop where
  | created (q c h : String) (t : ℤ) (r : Room) :
      createRoom q c h t = .ok r → Reachable r
  | joined (r : Room) (nick : String) :
      Reachable r → Reachable (joinRoom r nick).1
  | started (r : Room) (s : String) (tl : ℚ) (ca : List String) (qi : ℕ)
      (r' : Room) (e : Event) :
      Reachable r → startQuestion r s tl ca qi = .ok (r', e) → Reachable r'
  | submitted (v : String → List String → String → Bool) (r : Room) (pid : ℕ)
      (text : String) (rt tl : ℚ) (qi : ℕ) (ca : List String) (qt : String)
      (mp : ℕ) (r' : Room) (res : AnswerResult) :
      Reachable r → submitAnswer v r pid text rt tl qi ca qt mp = .ok (r', res) →
      Reachable r'
  | timedOut (r r' : Room) (e : Event) :
      Reachable r → timeoutRoom r = .ok (r', e) → Reachable r'
  | advanced (r : Room) (s : String) (r' : Room) (e : Event) :
      Reachable r → advance r s = .ok (r', e) → Reachable r'

/-- Exact-match validator instance used for the concrete scenarios. -/
def demoValidate : String → List String → String → Bool :=
  fun text correctAnswers _qType => correctAnswers.contains text

/-- A fresh two-question room, as produced by `createRoom`. -/
def demoRoom0 : Room := ⟨"R", "s", 2, 0, .idle, [], [], [], 0⟩

/-- The demo room after one participant joined. -/
def demoRoom1 : Room :=
  ⟨"R", "s", 2, 0, .idle, [⟨0, "alice", 0, 0⟩], [], [⟨0, "alice", 0, 0, 1⟩], 1⟩

/-- The demo room with question 0 running (30 s, 1000 points). -/
def demoRoom2 : Room :=
  ⟨"R", "s", 2, 0, .active, [⟨0, "alice", 0, 0⟩], [], [⟨0, "alice", 0, 0, 1⟩], 1⟩

/-- The demo room after a correct answer at 5 s of question 0. -/
def demoRoom3 : Room :=
  ⟨"R", "s", 2, 0, .active, [⟨0, "alice", 917, 1⟩],
   [⟨0, 0, "A", 5, true, 917⟩], [⟨0, "alice", 0, 0, 1⟩], 1⟩

/-- The demo room after question 0 timed out. -/
def demoRoom4 : Room :=
  ⟨"R", "s", 2, 0, .over, [⟨0, "alice", 917, 1⟩],
   [⟨0, 0, "A", 5, true, 917⟩], [⟨0, "alice", 917, 1, 1⟩], 1⟩

/-- The demo room advanced to question 1 (idle). -/
def demoRoom5 : Room :=
  ⟨"R", "s", 2, 1, .idle, [⟨0, "alice", 917, 1⟩],
   [⟨0, 0, "A", 5, true, 917⟩], [⟨0, "alice", 917, 1, 1⟩], 1⟩

/-- The demo room with question 1 running (20 s, 500 points). -/
def demoRoom6 : Room :=
  ⟨"R", "s", 2, 1, .active, [⟨0, "alice", 917, 1⟩],
   [⟨0, 0, "A", 5, true, 917⟩], [⟨0, "alice", 917, 1, 1⟩], 1⟩

/-- The demo room after a correct answer at 10 s of question 1. -/
def demoRoom7 : Room :=
  ⟨"R", "s", 2, 1, .active, [⟨0, "alice", 1329, 2⟩],
   [⟨0, 0, "A", 5, true, 917⟩, ⟨0, 1, "B", 10, true, 412⟩],
   [⟨0, "alice", 917, 1, 1⟩], 1⟩

/-- The demo room after the second timeout. -/
def demoRoom8 : Room :=
  ⟨"R", "s", 2, 1, .over, [⟨0, "alice", 1329, 2⟩],
   [⟨0, 0, "A", 5, true, 917⟩, ⟨0, 1, "B", 10, true, 412⟩],
   [⟨0, "alice", 1329, 2, 1⟩], 1⟩

/-- The demo room advanced past its final question: `complete`. -/
def demoRoom9 : Room :=
  ⟨"R", "s", 2, 2, .complete, [⟨0, "alice", 1329, 2⟩],
   [⟨0, 0, "A", 5, true, 917⟩, ⟨0, 1, "B", 10, true, 412⟩],
   [⟨0, "alice", 1329, 2, 1⟩], 1⟩

/-- Runs the spec's two-question scoring scenario through the modelled
coordinator and returns the two answer results. -/
def c2run : Except QuizError (AnswerResult × AnswerResult) :=
  (createRoom "python-quiz" "R" "s" 2).bind fun r0 =>
  (startQuestion (joinRoom r0 "alice").1 "s" 30 ["A"] 0).bind fun s2 =>
  (submitAnswer demoValidate s2.1 0 "A" 5 30 0 ["A"] "multiple-choice" 1000).bind fun s3 =>
  (timeoutRoom s3.1).bind fun s4 =>
  (advance s4.1 "s").bind fun s5 =>
  (startQuestion s5.1 "s" 20 ["B"] 1).bind fun s6 =>
  (submitAnswer demoValidate s6.1 0 "B" 10 20 1 ["B"] "multiple-choice" 500).map fun s7 =>
  (s3.2, s7.2)

/-- Swap of two positions of a list, embedding the TypeScript
destructuring swap `[shuffled[i], shuffled[j]] = [shuffled[j], shuffled[i]]`;
out-of-range indices leave the list unchanged (the Fisher-Yates loop only
ever produces in-range indices). -/
def swapList {α : Type} (l : List α) (i j : ℕ) : List α :=
  if h : i < l.length ∧ j < l.length then
    (l.set i (l.get ⟨j, h.2⟩)).set j (l.get ⟨i, h.1⟩)
  else l

/-- The downward Fisher-Yates loop of `shuffleArray` (quizUtils.ts): for
i from length-1 down to 1, swap position i with position `rand i`, where
`rand i` stands for `Math.floor(Math.random() * (i + 1))`. -/
def fyLoop {α : Type} (rand : ℕ → ℕ) : ℕ → List α → List α
  | 0, l => l
  | i + 1, l => fyLoop rand i (swapList l (i + 1) (rand (i + 1)))

/-- Embeds `shuffleArray` together with the array it was handed: the
function first copies the input (`[...array]`) and the loop then mutates
only the copy, so the pair tracks (input array, shuffled copy). -/
def shuffleArrayRun {α : Type} (rand : ℕ → ℕ) (array : List α) : List α × List α :=
  (array, fyLoop rand (array.length - 1) array)

/-- The returned shuffled array. -/
def shuffleArray {α : Type} (rand : ℕ → ℕ) (array : List α) : List α :=
  (shuffleArrayRun rand array).2

/-- Embeds `validateJoinForm` from join-room.ts; JavaScript string
truthiness makes `!roomCode` the empty-string test, modelled as a
zero-length test. -/
def validateJoinForm (roomCode nickname : String) : Option String :=
  if roomCode.length = 0 ∨ nickname.length = 0 then some "Please fill in all fields"
  else if roomCode.length < 4 then some "Room code must be at least 4 characters"
  else if nickname.length < 2 then some "Nickname must be at least 2 characters"
  else if nickname.length > 20 then some "Nickname must be at most 20 characters"
  else none

/-- Embeds QuizWebSocket's reconnect state (websocket.ts): the
`reconnectAttempts` counter. -/
structure WSState where
  reconnectAttempts : ℕ
deriving DecidableEq, Repr

/-- Embeds `maxReconnectAttempts = 5`. -/
def maxReconnectAttempts : ℕ := 5

/-- Embeds the `onclose` handler: when fewer than 5 attempts have been
made, the counter is incremented and a reconnect is scheduled after
`min(1000 * 2^attempts, 10000)` ms computed from the incremented counter;
otherwise nothing is scheduled. Returns the new state and the scheduled
delay, if any. -/
def wsOnClose (s : WSState) : WSState × Option ℕ :=
  if s.reconnectAttempts < maxReconnectAttempts then
    (⟨s.reconnectAttempts + 1⟩,
     some (min (1000 * 2 ^ (s.reconnectAttempts + 1)) 10000))
  else (s, none)

/-- Embeds the `onopen` handler: a successful connection resets the
counter to 0. -/
def wsOnOpen (_s : WSState) : WSState := ⟨0⟩

/-- Number of reconnects scheduled across k consecutive close events. -/
def wsRunCloses : WSState → ℕ → ℕ
  | _, 0 => 0
  | s, k + 1 =>
    (if (wsOnClose s).2.isSome then 1 else 0) + wsRunCloses (wsOnClose s).1 k

theorem floor_le_rhe (x : ℚ) : ⌊x⌋ ≤ roundHalfEven x := by
  unfold roundHalfEven
  split_ifs <;> omega

theorem rhe_le_floor_add_one (x : ℚ) : roundHalfEven x ≤ ⌊x⌋ + 1 := by
  unfold roundHalfEven
  split_ifs <;> omega

theorem rhe_mono {x y : ℚ} (h : x ≤ y) : roundHalfEven x ≤ roundHalfEven y := by
  rcases lt_or_le ⌊x⌋ ⌊y⌋ with hf | hf
  · calc roundHalfEven x ≤ ⌊x⌋ + 1 := rhe_le_floor_add_one x
      _ ≤ ⌊y⌋ := by omega
      _ ≤ roundHalfEven y := floor_le_rhe y
  · have hfe : ⌊y⌋ = ⌊x⌋ := le_antisymm hf (Int.floor_mono h)
    unfold roundHalfEven
    rw [hfe]
    split_ifs <;> first
      | omega
      | (exfalso; linarith)

theorem rhe_nonneg {x : ℚ} (h : 0 ≤ x) : 0 ≤ roundHalfEven x := by
  have h0 : (0 : ℤ) ≤ ⌊x⌋ := Int.floor_nonneg.mpr h
  have := floor_le_rhe x
  omega

theorem demoStep0 : createRoom "python-quiz" "R" "s" 2 = .ok demoRoom0 := rfl

theorem demoStep1 :
    joinRoom demoRoom0 "alice" = (demoRoom1, ⟨0, "alice", 0, 0⟩, .participantJoined 0) := by
  simp [joinRoom, demoRoom0, demoRoom1, onJoinRank]

theorem demoStep2 :
    startQuestion demoRoom1 "s" 30 ["A"] 0 = .ok (demoRoom2, .questionStarted 0 30) := by
  simp [startQuestion, demoRoom1, demoRoom2]

theorem demoStep3 :
    submitAnswer demoValidate demoRoom2 0 "A" 5 30 0 ["A"] "multiple-choice" 1000
      = .ok (demoRoom3, ⟨true, 917, 917, 1⟩) := by
  norm_num [submitAnswer, demoValidate, demoRoom2, demoRoom3, List.find?,
    scoringPoints, timeBonus, streakMultiplier, clampQ, roundHalfEven]

theorem demoStep4 : timeoutRoom demoRoom3 = .ok (demoRoom4, .questionTimeout 0) := by
  simp [timeoutRoom, demoRoom3, demoRoom4, refreshLB, rankAll, sortDesc, insertDesc, ranksAux]

theorem demoStep5 : advance demoRoom4 "s" = .ok (demoRoom5, .questionChanged 1) := by
  simp [advance, demoRoom4, demoRoom5]

theorem demoStep6 :
    startQuestion demoRoom5 "s" 20 ["B"] 1 = .ok (demoRoom6, .questionStarted 1 20) := by
  simp [startQuestion, demoRoom5, demoRoom6]

theorem demoStep7 :
    submitAnswer demoValidate demoRoom6 0 "B" 10 20 1 ["B"] "multiple-choice" 500
      = .ok (demoRoom7, ⟨true, 412, 1329, 2⟩) := by
  norm_num [submitAnswer, demoValidate, demoRoom6, demoRoom7, List.find?,
    scoringPoints, timeBonus, streakMultiplier, clampQ, roundHalfEven]
  rfl

theorem demoStep8 : timeoutRoom demoRoom7 = .ok (demoRoom8, .questionTimeout 1) := by
  simp [timeoutRoom, demoRoom7, demoRoom8, refreshLB, rankAll, sortDesc, insertDesc, ranksAux]

theorem demoStep9 : advance demoRoom8 "s" = .ok (demoRoom9, .quizComplete) := by
  simp [advance, demoRoom8, demoRoom9, refreshLB, rankAll, sortDesc, insertDesc, ranksAux]

theorem exceptBind_ok {ε α β : Type} (a : α) (f : α → Except ε β) :
    Except.bind (Except.ok a) f = f a := rfl

theorem exceptMap_ok {ε α β : Type} (a : α) (f : α → β) :
    Except.map f (Except.ok a : Except ε α) = .ok (f a) := rfl

/-- C2: the spec's two concrete scenarios produce exactly the stated values:
917 points (score 917, streak 1) for a correct answer at 5 s of a
30 s/1000-point question with streak 0, then 412 points (total 1329,
streak 2) for a correct answer at 10 s of a 20 s/500-point question with
streak 1. -/
theorem c2_scoring_scenario :
    c2run = .ok (⟨true, 917, 917, 1⟩, ⟨true, 412, 1329, 2⟩) := by
  have h1 : (joinRoom demoRoom0 "alice").1 = demoRoom1 := by rw [demoStep1]
  simp only [c2run, demoStep0, exceptBind_ok, h1, demoStep2, demoStep3, demoStep4,
    demoStep5, demoStep6, demoStep7, exceptMap_ok]

theorem demoReach0 : Reachable demoRoom0 :=
  .created "python-quiz" "R" "s" 2 demoRoom0 demoStep0

theorem demoReach1 : Reachable demoRoom1 := by
  have h := Reachable.joined demoRoom0 "alice" demoReach0
  rw [demoStep1] at h
  exact h

theorem demoReach2 : Reachable demoRoom2 :=
  .started demoRoom1 "s" 30 ["A"] 0 demoRoom2 (.questionStarted 0 30) demoReach1 demoStep2

theorem demoReach3 : Reachable demoRoom3 :=
  .submitted demoValidate demoRoom2 0 "A" 5 30 0 ["A"] "multiple-choice" 1000
    demoRoom3 ⟨true, 917, 917, 1⟩ demoReach2 demoStep3

theorem demoReach4 : Reachable demoRoom4 :=
  .timedOut demoRoom3 demoRoom4 (.questionTimeout 0) demoReach3 demoStep4

theorem demoReach5 : Reachable demoRoom5 :=
  .advanced demoRoom4 "s" demoRoom5 (.questionChanged 1) demoReach4 demoStep5

theorem demoReach6 : Reachable demoRoom6 :=
  .started demoRoom5 "s" 20 ["B"] 1 demoRoom6 (.questionStarted 1 20) demoReach5 demoStep6

theorem demoReach7 : Reachable demoRoom7 :=
  .submitted demoValidate demoRoom6 0 "B" 10 20 1 ["B"] "multiple-choice" 500
    demoRoom7 ⟨true, 412, 1329, 2⟩ demoReach6 demoStep7

theorem demoReach8 : Reachable demoRoom8 :=
  .timedOut demoRoom7 demoRoom8 (.questionTimeout 1) demoReach7 demoStep8

theorem demoReach9 : Reachable demoRoom9 :=
  .advanced demoRoom8 "s" demoRoom9 .quizComplete demoReach8 demoStep9

theorem half_le_timeBonus (rt tl : ℚ) : 1/2 ≤ timeBonus rt tl := le_max_left _ _

theorem timeBonus_le_one {rt tl : ℚ} (htl : 0 < tl) : timeBonus rt tl ≤ 1 := by
  unfold timeBonus clampQ
  have h0 : 0 ≤ max 0 (min rt tl) / tl := div_nonneg (le_max_left 0 _) htl.le
  apply max_le (by norm_num)
  linarith

theorem timeBonus_anti {rt₁ rt₂ tl : ℚ} (htl : 0 < tl) (h : rt₁ ≤ rt₂) :
    timeBonus rt₂ tl ≤ timeBonus rt₁ tl := by
  unfold timeBonus clampQ
  have h1 : max 0 (min rt₁ tl) ≤ max 0 (min rt₂ tl) :=
    max_le_max le_rfl (min_le_min h le_rfl)
  have h2 : max 0 (min rt₁ tl) / tl ≤ max 0 (min rt₂ tl) / tl := by gcongr
  apply max_le_max le_rfl
  linarith

theorem streakMultiplier_le (s : ℕ) : streakMultiplier s ≤ 3/2 := min_le_left _ _

theorem one_le_streakMultiplier (s : ℕ) : 1 ≤ streakMultiplier s := by
  unfold streakMultiplier
  have h : (0:ℚ) ≤ (s:ℚ)/10 := by positivity
  apply le_min (by norm_num)
  linarith

theorem streakMultiplier_mono {s₁ s₂ : ℕ} (h : s₁ ≤ s₂) :
    streakMultiplier s₁ ≤ streakMultiplier s₂ := by
  unfold streakMultiplier
  have hc : (s₁:ℚ) ≤ s₂ := by exact_mod_cast h
  apply min_le_min le_rfl
  gcongr

/-- C1 counterexample: with max_points = 1, response_time = 0 (valid for a
30 s limit) and streak 5, the scoring formula rounds 1.5 up to 2 points,
which exceeds max_points * 1.5. -/
theorem c1_cap_counterexample :
    scoringPoints 1 0 30 5 = 2 ∧ ¬((scoringPoints 1 0 30 5 : ℚ) ≤ (1 : ℚ) * (3/2)) := by
  have h : scoringPoints 1 0 30 5 = 2 := by
    norm_num [scoringPoints, timeBonus, streakMultiplier, clampQ, roundHalfEven]
  refine ⟨h, ?_⟩
  rw [h]
  norm_num

/-- C1 amended: for valid scoring inputs, points are monotonically
non-increasing in response_time and non-decreasing in streak, never exceed
the rounding of max_points * 1.5 (rather than max_points * 1.5 itself,
which rounding can exceed by half a point), and the streak multiplier
reaches its 1.5 cap exactly when streak ≥ 5. -/
theorem c1_scoring_amended (maxPoints : ℕ) (tl : ℚ) (htl : 0 < tl) :
    (∀ rt₁ rt₂ : ℚ, ∀ s : ℕ, 0 ≤ rt₁ → rt₁ ≤ rt₂ → rt₂ ≤ tl →
        scoringPoints maxPoints rt₂ tl s ≤ scoringPoints maxPoints rt₁ tl s) ∧
    (∀ rt : ℚ, ∀ s₁ s₂ : ℕ, s₁ ≤ s₂ →
        scoringPoints maxPoints rt tl s₁ ≤ scoringPoints maxPoints rt tl s₂) ∧
    (∀ rt : ℚ, ∀ s : ℕ, scoringPoints maxPoints rt tl s ≤ roundHalfEven ((maxPoints : ℚ) * (3/2))) ∧
    (∀ s : ℕ, streakMultiplier s = 3/2 ↔ 5 ≤ s) := by
  have hmp : (0:ℚ) ≤ (maxPoints : ℚ) := Nat.cast_nonneg _
  refine ⟨?_, ?_, ?_, ?_⟩
  · intro rt₁ rt₂ s _ h12 _
    apply rhe_mono
    have htb := timeBonus_anti htl h12
    have hsm0 : (0:ℚ) ≤ streakMultiplier s := le_trans (by norm_num) (one_le_streakMultiplier s)
    have := mul_le_mul_of_nonneg_left htb hmp
    exact mul_le_mul_of_nonneg_right this hsm0
  · intro rt s₁ s₂ h
    apply rhe_mono
    have hsm := streakMultiplier_mono h
    have htb0 : (0:ℚ) ≤ timeBonus rt tl := le_trans (by norm_num) (half_le_timeBonus rt tl)
    exact mul_le_mul_of_nonneg_left hsm (mul_nonneg hmp htb0)
  · intro rt s
    apply rhe_mono
    have htb1 : timeBonus rt tl ≤ 1 := timeBonus_le_one htl
    have htb0 : (0:ℚ) ≤ timeBonus rt tl := le_trans (by norm_num) (half_le_timeBonus rt tl)
    have hsm : streakMultiplier s ≤ 3/2 := streakMultiplier_le s
    have h1 : (maxPoints:ℚ) * timeBonus rt tl ≤ maxPoints := by
      have := mul_le_mul_of_nonneg_left htb1 hmp
      simpa using this
    calc (maxPoints:ℚ) * timeBonus rt tl * streakMultiplier s
        ≤ ((maxPoints:ℚ) * timeBonus rt tl) * (3/2) :=
          mul_le_mul_of_nonneg_left hsm (mul_nonneg hmp htb0)
      _ ≤ (maxPoints:ℚ) * (3/2) := mul_le_mul_of_nonneg_right h1 (by norm_num)
  · intro s
    unfold streakMultiplier
    rw [min_eq_left_iff]
    constructor
    · intro h
      by_contra hs
      push_neg at hs
      have h4 : (s:ℚ) ≤ 4 := by exact_mod_cast Nat.lt_succ_iff.mp hs
      linarith
    · intro h
      have h5 : (5:ℚ) ≤ (s:ℚ) := by exact_mod_cast h
      linarith

theorem c1_scoring_amended_witness :
    (0:ℚ) < 30 ∧ scoringPoints 1000 10 30 0 ≤ scoringPoints 1000 5 30 0 ∧
    scoringPoints 1000 5 30 0 ≤ scoringPoints 1000 5 30 3 ∧
    scoringPoints 1000 5 30 3 ≤ roundHalfEven ((1000 : ℚ) * (3/2)) ∧
    (streakMultiplier 5 = 3/2 ↔ 5 ≤ 5) := by
  have h := c1_scoring_amended 1000 30 (by norm_num)
  exact ⟨by norm_num,
         h.1 5 10 0 (by norm_num) (by norm_num) (by norm_num),
         h.2.1 5 0 3 (by norm_num),
         h.2.2.1 5 3,
         h.2.2.2 5⟩

theorem find?_map_update (pid : ℕ) (p' : Participant) (hp' : p'.pid = pid) :
    ∀ (l : List Participant) (p : Participant),
      l.find? (fun q => q.pid == pid) = some p →
      (l.map (fun q => if q.pid == pid then p' else q)).find? (fun q => q.pid == pid)
        = some p'
  | [], p, h => by simp at h
  | q :: t, p, h => by
    by_cases hq : q.pid = pid
    · simp [List.find?_cons, hq, hp']
    · have h' : t.find? (fun q => q.pid == pid) = some p := by
        simpa [List.find?_cons, hq] using h
      simpa [List.find?_cons, hq] using find?_map_update pid p' hp' t p h'

theorem find?_append_of_none {α : Type} (p : α → Bool) (l₁ l₂ : List α)
    (h : l₁.find? p = none) : (l₁ ++ l₂).find? p = l₂.find? p := by
  rw [List.find?_append, h, Option.none_or]

theorem countP_eq_zero_of_find?_none {α : Type} {p : α → Bool} {l : List α}
    (h : l.find? p = none) : l.countP p = 0 := by
  rw [List.countP_eq_zero]
  intro a ha
  exact List.find?_eq_none.mp h a ha

theorem reachable_answers_once {r : Room} (hr : Reachable r) :
    ∀ pid qi : ℕ, r.answers.countP (fun a => a.pid == pid && a.qIndex == qi) ≤ 1 := by
  induction hr with
  | created q c h t r heq =>
    intro pid qi
    unfold createRoom at heq
    split at heq
    · cases heq
    · cases heq
      simp
  | joined r nick _ ih =>
    intro pid qi
    simpa [joinRoom] using ih pid qi
  | started r s tl ca qi' r' e _ heq ih =>
    intro pid qi
    unfold startQuestion at heq
    split at heq
    · cases heq
    · split at heq
      · cases heq
      · split at heq
        · cases heq
        · cases heq
          simpa using ih pid qi
  | submitted v r pid' text rt tl qi' ca qt mp r' res _ heq ih =>
    intro pid qi
    unfold submitAnswer at heq
    split at heq
    · cases heq
    · rename_i p hp
      split at heq
      · cases heq
        exact ih pid qi
      · rename_i ha
        split at heq
        · cases heq
          rw [List.countP_append, List.countP_cons]
          simp only [List.countP_nil]
          by_cases hpq : pid' = pid ∧ qi' = qi
          · obtain ⟨hpe, hqe⟩ := hpq
            subst hpe
            subst hqe
            have h0 := countP_eq_zero_of_find?_none ha
            simp [h0]
          · have hcond :
                ((⟨pid', qi', text, rt, v text ca qt,
                   if v text ca qt then scoringPoints mp rt tl p.streak else 0⟩ :
                  Answer).pid == pid
                 && (⟨pid', qi', text, rt, v text ca qt,
                      if v text ca qt then scoringPoints mp rt tl p.streak else 0⟩ :
                     Answer).qIndex == qi) = false := by
              simp only [Bool.and_eq_false_iff, beq_eq_false_iff_ne]
              by_cases h1 : pid' = pid
              · right
                intro h2
                exact hpq ⟨h1, h2⟩
              · left
                exact h1
            rw [hcond]
            simpa using ih pid qi
        · cases heq
  | timedOut r r' e _ heq ih =>
    intro pid qi
    unfold timeoutRoom at heq
    split at heq
    · cases heq
      simpa using ih pid qi
    · cases heq
  | advanced r s r' e _ heq ih =>
    intro pid qi
    unfold advance at heq
    split at heq
    · cases heq
    · split at heq
      · cases heq
      · split at heq
        · cases heq
          simpa using ih pid qi
        · cases heq
          simpa using ih pid qi

theorem submit_idempotent
    (v : String → List String → String → Bool) (r : Room) (pid : ℕ)
    (text : String) (rt tl : ℚ) (qi : ℕ) (ca : List String) (qt : String) (mp : ℕ)
    (r' : Room) (res : AnswerResult)
    (heq : submitAnswer v r pid text rt tl qi ca qt mp = .ok (r', res)) :
    ∀ (v₂ : String → List String → String → Bool) (text₂ : String) (rt₂ tl₂ : ℚ)
      (ca₂ : List String) (qt₂ : String) (mp₂ : ℕ),
      submitAnswer v₂ r' pid text₂ rt₂ tl₂ qi ca₂ qt₂ mp₂ = .ok (r', res) := by
  intro v₂ text₂ rt₂ tl₂ ca₂ qt₂ mp₂
  unfold submitAnswer at heq ⊢
  split at heq
  · cases heq
  · rename_i p hp
    split at heq
    · rename_i a ha
      cases heq
      simp [hp, ha]
    · rename_i ha
      split at heq
      · rename_i hst
        cases heq
        have hpid : p.pid = pid := by
          have := List.find?_some hp
          simpa using this
        have h1 := find?_map_update pid
          { p with
              score := p.score +
                (if v text ca qt then scoringPoints mp rt tl p.streak else 0),
              streak := if v text ca qt then p.streak + 1 else 0 }
          (by simpa using hpid) r.participants p hp
        have h2 := find?_append_of_none
          (fun a => a.pid == pid && a.qIndex == qi) r.answers
          [⟨pid, qi, text, rt, v text ca qt,
            if v text ca qt then scoringPoints mp rt tl p.streak else 0⟩] ha
        simp only [h1, h2, List.find?_cons]
        simp
      · cases heq

/-- C3: at most one answer is ever recorded per (participant, question
index) pair in any reachable room, and a repeated submit_answer for the
same question returns the previously recorded result with the room
unchanged — it never re-scores and never increments the streak again. -/
theorem c3_single_answer_per_question :
    (∀ r : Room, Reachable r → ∀ pid qi : ℕ,
        r.answers.countP (fun a => a.pid == pid && a.qIndex == qi) ≤ 1) ∧
    (∀ (v : String → List String → String → Bool) (r : Room) (pid : ℕ)
        (text : String) (rt tl : ℚ) (qi : ℕ) (ca : List String) (qt : String)
        (mp : ℕ) (r' : Room) (res : AnswerResult),
        submitAnswer v r pid text rt tl qi ca qt mp = .ok (r', res) →
        ∀ (v₂ : String → List String → String → Bool) (text₂ : String)
          (rt₂ tl₂ : ℚ) (ca₂ : List String) (qt₂ : String) (mp₂ : ℕ),
          submitAnswer v₂ r' pid text₂ rt₂ tl₂ qi ca₂ qt₂ mp₂ = .ok (r', res)) :=
  ⟨fun _r hr => reachable_answers_once hr,
   fun v r pid text rt tl qi ca qt mp r' res heq =>
     submit_idempotent v r pid text rt tl qi ca qt mp r' res heq⟩

theorem c3_witness :
    demoRoom3.answers.countP (fun a => a.pid == 0 && a.qIndex == 0) ≤ 1 ∧
    submitAnswer demoValidate demoRoom3 0 "zzz" 29 30 0 ["A"] "multiple-choice" 1000
      = .ok (demoRoom3, ⟨true, 917, 917, 1⟩) :=
  ⟨c3_single_answer_per_question.1 demoRoom3 demoReach3 0 0,
   c3_single_answer_per_question.2 demoValidate demoRoom2 0 "A" 5 30 0 ["A"]
     "multiple-choice" 1000 demoRoom3 ⟨true, 917, 917, 1⟩ demoStep3
     demoValidate "zzz" 29 30 ["A"] "multiple-choice" 1000⟩

/-- C4: advance fails with AuthError on host-secret mismatch, with
StateError when the status is not `over`; on success it increments the
index first and only then checks completion, setting `complete` (and
emitting quiz_complete) past the final question — after which
start_question fails with StateError — and otherwise `idle` with a
question_changed event carrying the new index. -/
theorem c4_advance_behavior (r : Room) (secret : String) :
    (secret ≠ r.hostSecret → advance r secret = .error .AuthError) ∧
    (secret = r.hostSecret → r.status ≠ .over → advance r secret = .error .StateError) ∧
    (secret = r.hostSecret → r.status = .over →
      (r.totalQuestions ≤ r.currentIndex + 1 →
        advance r secret = .ok ({ r with currentIndex := r.currentIndex + 1,
                                         status := .complete,
                                         leaderboard := refreshLB r.participants },
                                .quizComplete) ∧
        ∀ (tl : ℚ) (ca : List String) (qi : ℕ),
          startQuestion { r with currentIndex := r.currentIndex + 1,
                                 status := .complete,
                                 leaderboard := refreshLB r.participants }
            r.hostSecret tl ca qi = .error .StateError) ∧
      (r.currentIndex + 1 < r.totalQuestions →
        advance r secret = .ok ({ r with currentIndex := r.currentIndex + 1,
                                         status := .idle },
                                .questionChanged (r.currentIndex + 1)))) := by
  refine ⟨?_, ?_, ?_⟩
  · intro h
    simp [advance, h]
  · intro h1 h2
    simp [advance, h1, h2]
  · intro h1 h2
    refine ⟨fun h3 => ⟨?_, ?_⟩, fun h3 => ?_⟩
    · simp [advance, h1, h2, h3]
    · intro tl ca qi
      simp [startQuestion]
    · simp [advance, h1, h2, not_le.mpr h3]

theorem c4_witness :
    advance demoRoom8 "s"
      = .ok ({ demoRoom8 with currentIndex := demoRoom8.currentIndex + 1,
                              status := .complete,
                              leaderboard := refreshLB demoRoom8.participants },
             .quizComplete) ∧
    startQuestion { demoRoom8 with currentIndex := demoRoom8.currentIndex + 1,
                                   status := .complete,
                                   leaderboard := refreshLB demoRoom8.participants }
      demoRoom8.hostSecret 30 ["C"] 2 = .error .StateError ∧
    advance demoRoom4 "s"
      = .ok ({ demoRoom4 with currentIndex := demoRoom4.currentIndex + 1,
                              status := .idle },
             .questionChanged (demoRoom4.currentIndex + 1)) ∧
    advance demoRoom2 "s" = .error .StateError ∧
    advance demoRoom4 "x" = .error .AuthError := by
  refine ⟨?_, ?_, ?_, ?_, ?_⟩
  · exact (((c4_advance_behavior demoRoom8 "s").2.2 rfl rfl).1 (by decide)).1
  · exact (((c4_advance_behavior demoRoom8 "s").2.2 rfl rfl).1 (by decide)).2 30 ["C"] 2
  · exact ((c4_advance_behavior demoRoom4 "s").2.2 rfl rfl).2 (by decide)
  · exact (c4_advance_behavior demoRoom2 "s").2.1 rfl (by decide)
  · exact (c4_advance_behavior demoRoom4 "x").1 (by decide)

theorem insertDesc_perm (p : Participant) (l : List Participant) :
    (insertDesc p l).Perm (p :: l) := by
  induction l with
  | nil => exact List.Perm.refl _
  | cons a t ih =>
    unfold insertDesc
    by_cases h : a.score ≤ p.score
    · rw [if_pos h]
    · rw [if_neg h]
      exact List.Perm.trans (ih.cons a) (List.Perm.swap p a t)

theorem sortDesc_perm (ps : List Participant) : (sortDesc ps).Perm ps := by
  induction ps with
  | nil => exact List.Perm.refl _
  | cons a t ih =>
    have h1 : sortDesc (a :: t) = insertDesc a (sortDesc t) := rfl
    rw [h1]
    exact List.Perm.trans (insertDesc_perm a (sortDesc t)) (ih.cons a)

theorem mem_sortDesc {p : Participant} {ps : List Participant} (h : p ∈ ps) :
    p ∈ sortDesc ps := (sortDesc_perm ps).mem_iff.mpr h

theorem ranksAux_mem :
    ∀ (l : List Participant) (rank : ℕ) (prev : ℤ) (p : Participant), p ∈ l →
      ∃ e ∈ ranksAux rank prev l,
        e.pid = p.pid ∧ e.nickname = p.nickname ∧ e.score = p.score ∧ e.streak = p.streak
  | [], _, _, _, h => absurd h (List.not_mem_nil _)
  | q :: t, rank, prev, p, h => by
    rcases List.mem_cons.mp h with rfl | hmem
    · exact ⟨⟨p.pid, p.nickname, p.score, p.streak,
        if p.score = prev then rank else rank + 1⟩,
        List.mem_cons_self _ _, rfl, rfl, rfl, rfl⟩
    · obtain ⟨e, he, hfields⟩ :=
        ranksAux_mem t (if q.score = prev then rank else rank + 1) q.score p hmem
      exact ⟨e, List.mem_cons_of_mem _ he, hfields⟩

theorem refreshLB_mem {p : Participant} {ps : List Participant} (hp : p ∈ ps) :
    ∃ e ∈ refreshLB ps,
      e.pid = p.pid ∧ e.nickname = p.nickname ∧ e.score = p.score ∧ e.streak = p.streak := by
  have hs := mem_sortDesc hp
  unfold refreshLB
  cases hsort : sortDesc ps with
  | nil =>
    rw [hsort] at hs
    cases hs
  | cons q rest =>
    rw [hsort] at hs
    rcases List.mem_cons.mp hs with rfl | hmem
    · exact ⟨⟨p.pid, p.nickname, p.score, p.streak, 1⟩,
        List.mem_cons_self _ _, rfl, rfl, rfl, rfl⟩
    · obtain ⟨e, he, hfields⟩ := ranksAux_mem rest 1 q.score p hmem
      exact ⟨e, List.mem_cons_of_mem _ he, hfields⟩

/-- C5: submit_answer never modifies the leaderboard cache (and leaves the
room status unchanged), so a leaderboard read right after a submission
returns the same snapshot as before it; only after timeout does the cache
get refreshed, at which point it lists every participant with their
current score — reflecting all recorded submissions. -/
theorem c5_no_leaderboard_leak :
    (∀ (v : String → List String → String → Bool) (r : Room) (pid : ℕ)
        (text : String) (rt tl : ℚ) (qi : ℕ) (ca : List String) (qt : String)
        (mp : ℕ) (r' : Room) (res : AnswerResult),
        submitAnswer v r pid text rt tl qi ca qt mp = .ok (r', res) →
        r'.leaderboard = r.leaderboard ∧ r'.status = r.status) ∧
    (∀ (r r' : Room) (e : Event), timeoutRoom r = .ok (r', e) →
        r'.leaderboard = refreshLB r'.participants ∧
        ∀ p ∈ r'.participants, ∃ ent ∈ r'.leaderboard,
          ent.pid = p.pid ∧ ent.nickname = p.nickname ∧
          ent.score = p.score ∧ ent.streak = p.streak) := by
  constructor
  · intro v r pid text rt tl qi ca qt mp r' res heq
    unfold submitAnswer at heq
    split at heq
    · cases heq
    · split at heq
      · cases heq
        exact ⟨rfl, rfl⟩
      · split at heq
        · cases heq
          exact ⟨rfl, rfl⟩
        · cases heq
  · intro r r' e heq
    unfold timeoutRoom at heq
    split at heq
    · cases heq
      exact ⟨rfl, fun p hp => refreshLB_mem hp⟩
    · cases heq

theorem c5_witness :
    demoRoom3.leaderboard = demoRoom2.leaderboard ∧
    demoRoom4.leaderboard = refreshLB demoRoom4.participants :=
  ⟨(c5_no_leaderboard_leak.1 demoValidate demoRoom2 0 "A" 5 30 0 ["A"]
      "multiple-choice" 1000 demoRoom3 ⟨true, 917, 917, 1⟩ demoStep3).1,
   (c5_no_leaderboard_leak.2 demoRoom3 demoRoom4 (.questionTimeout 0) demoStep4).1⟩

theorem reachable_index_lt {r : Room} (hr : Reachable r) :
    r.status ≠ .complete → r.currentIndex < r.totalQuestions := by
  induction hr with
  | created q c h t r heq =>
    unfold createRoom at heq
    split at heq
    · cases heq
    · rename_i ht
      cases heq
      intro _
      have h0 : (0:ℕ) < t.toNat := by omega
      simpa using h0
  | joined r nick _ ih =>
    intro h
    have hst : (joinRoom r nick).1.status = r.status := rfl
    have hidx : (joinRoom r nick).1.currentIndex = r.currentIndex := rfl
    have htot : (joinRoom r nick).1.totalQuestions = r.totalQuestions := rfl
    rw [hst] at h
    rw [hidx, htot]
    exact ih h
  | started r s tl ca qi r' e _ heq ih =>
    unfold startQuestion at heq
    split at heq
    · cases heq
    · split at heq
      · cases heq
      · split at heq
        · cases heq
        · rename_i hauth hcond hqi
          cases heq
          intro _
          exact ih (fun hc => hcond (Or.inr hc))
  | submitted v r pid text rt tl qi ca qt mp r' res _ heq ih =>
    unfold submitAnswer at heq
    split at heq
    · cases heq
    · split at heq
      · cases heq
        exact ih
      · split at heq
        · rename_i hst
          cases heq
          intro _
          exact ih (by rw [hst.1]; intro hc; cases hc)
        · cases heq
  | timedOut r r' e _ heq ih =>
    unfold timeoutRoom at heq
    split at heq
    · rename_i hst
      cases heq
      intro _
      exact ih (by rw [hst]; intro hc; cases hc)
    · cases heq
  | advanced r s r' e _ heq ih =>
    unfold advance at heq
    split at heq
    · cases heq
    · split at heq
      · cases heq
      · split at heq
        · cases heq
          intro h
          exact absurd rfl h
        · rename_i hlt
          cases heq
          intro _
          show r.currentIndex + 1 < r.totalQuestions
          omega

/-- C6: in every reachable room, the current question index stays below
the total question count whenever the status is not `complete`; once the
status is `complete`, start_question is rejected with StateError (and can
never succeed), and no operation moves the room out of `complete`. -/
theorem c6_index_and_complete (r : Room) (hr : Reachable r) :
    (r.status ≠ .complete → r.currentIndex < r.totalQuestions) ∧
    (r.status = .complete →
      (∀ (tl : ℚ) (ca : List String) (qi : ℕ),
          startQuestion r r.hostSecret tl ca qi = .error .StateError) ∧
      (∀ (s : String) (tl : ℚ) (ca : List String) (qi : ℕ) (r' : Room) (e : Event),
          startQuestion r s tl ca qi ≠ .ok (r', e)) ∧
      (∀ nick : String, (joinRoom r nick).1.status = .complete) ∧
      (∀ (v : String → List String → String → Bool) (pid : ℕ) (text : String)
          (rt tl : ℚ) (qi : ℕ) (ca : List String) (qt : String) (mp : ℕ)
          (r' : Room) (res : AnswerResult),
          submitAnswer v r pid text rt tl qi ca qt mp = .ok (r', res) →
          r'.status = .complete) ∧
      (∀ (r' : Room) (e : Event), timeoutRoom r ≠ .ok (r', e)) ∧
      (∀ (s : String) (r' : Room) (e : Event), advance r s ≠ .ok (r', e))) := by
  refine ⟨reachable_index_lt hr, fun h => ⟨?_, ?_, ?_, ?_, ?_, ?_⟩⟩
  · intro tl ca qi
    simp [startQuestion, h]
  · intro s tl ca qi r' e heq
    unfold startQuestion at heq
    split at heq
    · cases heq
    · split at heq
      · cases heq
      · split at heq
        · cases heq
        · rename_i hauth hcond hqi
          exact hcond (Or.inr h)
  · intro nick
    exact h
  · intro v pid text rt tl qi ca qt mp r' res heq
    unfold submitAnswer at heq
    split at heq
    · cases heq
    · split at heq
      · cases heq
        exact h
      · split at heq
        · rename_i hst
          rw [h] at hst
          cases hst.1
        · cases heq
  · intro r' e heq
    unfold timeoutRoom at heq
    split at heq
    · rename_i hst
      rw [h] at hst
      cases hst
    · cases heq
  · intro s r' e heq
    unfold advance at heq
    split at heq
    · cases heq
    · split at heq
      · cases heq
      · rename_i hauth hstat
        rw [h] at hstat
        exact hstat (fun hc => by cases hc)

theorem c6_witness :
    demoRoom2.currentIndex < demoRoom2.totalQuestions ∧
    startQuestion demoRoom9 demoRoom9.hostSecret 30 ["C"] 2 = .error .StateError :=
  ⟨(c6_index_and_complete demoRoom2 demoReach2).1 (by decide),
   ((c6_index_and_complete demoRoom9 demoReach9).2 rfl).1 30 ["C"] 2⟩

theorem insertDesc_cons (p a : Participant) (t : List Participant) :
    insertDesc p (a :: t) = if a.score ≤ p.score then p :: a :: t else a :: insertDesc p t :=
  rfl

theorem insertDesc_append_last (q p₀ : Participant) (hq : 0 ≤ q.score)
    (hp₀ : p₀.score = 0) :
    ∀ l : List Participant, insertDesc q (l ++ [p₀]) = insertDesc q l ++ [p₀]
  | [] => by
    rw [List.nil_append, insertDesc_cons, if_pos (by omega)]
    rfl
  | a :: t => by
    rw [List.cons_append, insertDesc_cons, insertDesc_cons]
    by_cases h : a.score ≤ q.score
    · rw [if_pos h, if_pos h, List.cons_append, List.cons_append]
    · rw [if_neg h, if_neg h, insertDesc_append_last q p₀ hq hp₀ t, List.cons_append]

theorem sortDesc_append_zero (p₀ : Participant) (hp₀ : p₀.score = 0) :
    ∀ ps : List Participant, (∀ q ∈ ps, 0 ≤ q.score) →
      sortDesc (ps ++ [p₀]) = sortDesc ps ++ [p₀]
  | [], _ => by
    show insertDesc p₀ [] = [] ++ [p₀]
    rfl
  | a :: t, hall => by
    have h1 : sortDesc ((a :: t) ++ [p₀]) = insertDesc a (sortDesc (t ++ [p₀])) := rfl
    have h2 : sortDesc (a :: t) = insertDesc a (sortDesc t) := rfl
    rw [h1, h2, sortDesc_append_zero p₀ hp₀ t (fun q hq => hall q (List.mem_cons_of_mem _ hq)),
        insertDesc_append_last a p₀ (hall a (List.mem_cons_self _ _)) hp₀ (sortDesc t)]

theorem ranksAux_append (q : Participant) :
    ∀ (l : List Participant) (rank : ℕ) (prev : ℤ),
      ranksAux rank prev (l ++ [q]) =
        ranksAux rank prev l ++
          [⟨q.pid, q.nickname, q.score, q.streak,
            if q.score = (lastState rank prev l).2 then (lastState rank prev l).1
            else (lastState rank prev l).1 + 1⟩]
  | [], rank, prev => by
    simp [ranksAux, lastState]
  | p :: t, rank, prev => by
    rw [List.cons_append]
    show (⟨p.pid, p.nickname, p.score, p.streak,
            if p.score = prev then rank else rank + 1⟩ ::
          ranksAux (if p.score = prev then rank else rank + 1) p.score (t ++ [q])) = _
    rw [ranksAux_append q t (if p.score = prev then rank else rank + 1) p.score]
    show _ = (⟨p.pid, p.nickname, p.score, p.streak,
            if p.score = prev then rank else rank + 1⟩ ::
          ranksAux (if p.score = prev then rank else rank + 1) p.score t) ++ _
    rw [List.cons_append]
    show _ = _ :: (_ ++ [⟨q.pid, q.nickname, q.score, q.streak,
      if q.score = (lastState rank prev (p :: t)).2 then (lastState rank prev (p :: t)).1
      else (lastState rank prev (p :: t)).1 + 1⟩])
    rfl

theorem ranksAux_getLast (e0 : LBEntry) :
    ∀ (l : List Participant) (rank : ℕ) (prev : ℤ), e0.rank = rank → e0.score = prev →
      ∃ elast, (e0 :: ranksAux rank prev l).getLast? = some elast ∧
        elast.rank = (lastState rank prev l).1 ∧ elast.score = (lastState rank prev l).2
  | [], rank, prev, h1, h2 =>
    ⟨e0, by simp [ranksAux], by simpa [lastState] using h1, by simpa [lastState] using h2⟩
  | p :: t, rank, prev, h1, h2 => by
    obtain ⟨el, hl, hr, hs⟩ := ranksAux_getLast
      ⟨p.pid, p.nickname, p.score, p.streak, if p.score = prev then rank else rank + 1⟩
      t (if p.score = prev then rank else rank + 1) p.score rfl rfl
    refine ⟨el, ?_, ?_, ?_⟩
    · show (e0 :: ranksAux rank prev (p :: t)).getLast? = some el
      unfold ranksAux
      rw [List.getLast?_cons_cons]
      exact hl
    · show el.rank = (lastState rank prev (p :: t)).1
      unfold lastState
      exact hr
    · show el.score = (lastState rank prev (p :: t)).2
      unfold lastState
      exact hs

theorem rankAll_append_zero (p₀ : Participant) (hp₀ : p₀.score = 0) :
    ∀ l : List Participant,
      rankAll (l ++ [p₀]) =
        rankAll l ++ [⟨p₀.pid, p₀.nickname, 0, p₀.streak, onJoinRank (rankAll l)⟩]
  | [] => by
    simp [rankAll, ranksAux, onJoinRank, hp₀]
  | q :: rest => by
    rw [List.cons_append]
    show (⟨q.pid, q.nickname, q.score, q.streak, 1⟩ :: ranksAux 1 q.score (rest ++ [p₀]))
      = (⟨q.pid, q.nickname, q.score, q.streak, 1⟩ :: ranksAux 1 q.score rest)
        ++ [⟨p₀.pid, p₀.nickname, 0, p₀.streak,
             onJoinRank (⟨q.pid, q.nickname, q.score, q.streak, 1⟩ :: ranksAux 1 q.score rest)⟩]
    rw [ranksAux_append p₀ rest 1 q.score, List.cons_append]
    obtain ⟨el, hl, hr, hs⟩ := ranksAux_getLast
      ⟨q.pid, q.nickname, q.score, q.streak, 1⟩ rest 1 q.score rfl rfl
    have hoj : onJoinRank (⟨q.pid, q.nickname, q.score, q.streak, 1⟩
        :: ranksAux 1 q.score rest) = if el.score = 0 then el.rank else el.rank + 1 := by
      unfold onJoinRank
      rw [hl]
    rw [hoj, hp₀, hr, hs]
    congr 2
    by_cases hz : (lastState 1 q.score rest).2 = 0
    · rw [if_pos hz, if_pos (by omega)]
    · rw [if_neg hz, if_neg (by omega)]

theorem refreshLB_append_zero (p₀ : Participant) (hp₀ : p₀.score = 0)
    (ps : List Participant) (hall : ∀ q ∈ ps, 0 ≤ q.score) :
    refreshLB (ps ++ [p₀]) =
      refreshLB ps ++ [⟨p₀.pid, p₀.nickname, 0, p₀.streak, onJoinRank (refreshLB ps)⟩] := by
  unfold refreshLB
  rw [sortDesc_append_zero p₀ hp₀ ps hall, rankAll_append_zero p₀ hp₀ (sortDesc ps)]

/-- C7: store-level join fails with NotFoundError exactly when the room
code is unknown (surfaced by the frontend as a not-found message); on
success — in any room status — the new participant has score 0 and
streak 0 and a zero-score leaderboard entry is appended at once, so that
when the cached snapshot was fresh the post-join snapshot equals a full
refresh over the enlarged roster: the joiner is visible with score 0 and
correctly dense-ranked. -/
theorem c7_join_behavior :
    (∀ (st : List Room) (code nick : String),
        joinStore st code nick = .error .NotFoundError ↔
          st.find? (fun r => r.code == code) = none) ∧
    (∀ (r : Room) (nick : String),
        (joinRoom r nick).2.1.score = 0 ∧
        (joinRoom r nick).2.1.streak = 0 ∧
        (joinRoom r nick).1.status = r.status ∧
        (joinRoom r nick).1.participants = r.participants ++ [(joinRoom r nick).2.1] ∧
        (joinRoom r nick).1.leaderboard =
          r.leaderboard ++ [⟨r.nextPid, nick, 0, 0, onJoinRank r.leaderboard⟩]) ∧
    (∀ (r : Room) (nick : String),
        r.leaderboard = refreshLB r.participants →
        (∀ p ∈ r.participants, 0 ≤ p.score) →
        (joinRoom r nick).1.leaderboard = refreshLB (joinRoom r nick).1.participants) ∧
    (∀ code : String,
        joinRoomClient 404 code =
          some ("Room \"" ++ code ++ "\" not found. Check the code with your host.")) := by
  refine ⟨?_, ?_, ?_, ?_⟩
  · intro st code nick
    unfold joinStore
    cases h : st.find? (fun r => r.code == code) with
    | none => simp
    | some r => simp
  · intro r nick
    exact ⟨rfl, rfl, rfl, rfl, rfl⟩
  · intro r nick hlb hall
    show r.leaderboard ++ [⟨r.nextPid, nick, 0, 0, onJoinRank r.leaderboard⟩]
        = refreshLB (r.participants ++ [⟨r.nextPid, nick, 0, 0⟩])
    rw [hlb, refreshLB_append_zero ⟨r.nextPid, nick, 0, 0⟩ rfl r.participants hall]
  · intro code
    simp [joinRoomClient]

theorem c7_witness :
    joinStore [] "R" "bob" = .error .NotFoundError ∧
    (joinRoom demoRoom4 "bob").2.1.score = 0 ∧
    (joinRoom demoRoom4 "bob").1.leaderboard
      = refreshLB (joinRoom demoRoom4 "bob").1.participants :=
  ⟨(c7_join_behavior.1 [] "R" "bob").mpr rfl,
   (c7_join_behavior.2.1 demoRoom4 "bob").1,
   c7_join_behavior.2.2.1 demoRoom4 "bob" (by decide) (by decide)⟩

theorem multiset_set_add {α : Type} :
    ∀ (l : List α) (i : ℕ) (h : i < l.length) (a : α),
      (↑(l.set i a) : Multiset α) + {l.get ⟨i, h⟩} = (↑l : Multiset α) + {a}
  | [], i, h, _ => absurd h (by simp)
  | x :: t, 0, _, a => by
    show (↑(a :: t) : Multiset α) + {x} = (↑(x :: t) : Multiset α) + {a}
    rw [← Multiset.cons_coe, ← Multiset.cons_coe, ← Multiset.singleton_add,
        ← Multiset.singleton_add]
    abel
  | x :: t, i + 1, h, a => by
    have ih := multiset_set_add t i (by simpa using h) a
    show (↑(x :: t.set i a) : Multiset α) + {t.get ⟨i, _⟩} = (↑(x :: t) : Multiset α) + {a}
    rw [← Multiset.cons_coe, ← Multiset.cons_coe, ← Multiset.singleton_add,
        ← Multiset.singleton_add, add_assoc, add_assoc, ih]

theorem multiset_swapList {α : Type} (l : List α) (i j : ℕ) :
    (↑(swapList l i j) : Multiset α) = ↑l := by
  unfold swapList
  split
  · rename_i h
    have hlen : j < (l.set i (l.get ⟨j, h.2⟩)).length := by simpa using h.2
    have h1 := multiset_set_add (l.set i (l.get ⟨j, h.2⟩)) j hlen (l.get ⟨i, h.1⟩)
    have h2 := multiset_set_add l i h.1 (l.get ⟨j, h.2⟩)
    have hget : (l.set i (l.get ⟨j, h.2⟩)).get ⟨j, hlen⟩ = l.get ⟨j, h.2⟩ := by
      by_cases hij : i = j
      · subst hij
        simp [List.get_eq_getElem, List.getElem_set]
      · simp [List.get_eq_getElem, List.getElem_set, hij]
    rw [hget] at h1
    exact add_right_cancel (h1.trans h2)
  · rfl

theorem multiset_fyLoop {α : Type} (rand : ℕ → ℕ) :
    ∀ (i : ℕ) (l : List α), (↑(fyLoop rand i l) : Multiset α) = ↑l
  | 0, _ => rfl
  | i + 1, l => by
    show (↑(fyLoop rand i (swapList l (i + 1) (rand (i + 1)))) : Multiset α) = ↑l
    rw [multiset_fyLoop rand i (swapList l (i + 1) (rand (i + 1))), multiset_swapList]

/-- C8: for every input array and every sequence of random draws,
shuffleArray leaves the input array itself unmodified and returns an
array with exactly the same elements and multiplicities — a permutation
of the input. -/
theorem c8_shuffle_preserves {α : Type} (rand : ℕ → ℕ) (array : List α) :
    (shuffleArrayRun rand array).1 = array ∧
    (↑(shuffleArray rand array) : Multiset α) = (↑array : Multiset α) ∧
    (shuffleArray rand array).Perm array :=
  ⟨rfl, multiset_fyLoop rand (array.length - 1) array,
   Multiset.coe_eq_coe.mp (multiset_fyLoop rand (array.length - 1) array)⟩

/-- C9: validateJoinForm returns null exactly when the room code is
non-empty with length ≥ 4 and the nickname is non-empty with length in
[2, 20]; every invalid input yields an error message, and an empty field
yields the fill-in-all-fields message regardless of the length checks. -/
theorem c9_validateJoinForm (roomCode nickname : String) :
    (validateJoinForm roomCode nickname = none ↔
      (roomCode.length ≠ 0 ∧ 4 ≤ roomCode.length ∧
       nickname.length ≠ 0 ∧ 2 ≤ nickname.length ∧ nickname.length ≤ 20)) ∧
    ((roomCode.length = 0 ∨ nickname.length = 0) →
      validateJoinForm roomCode nickname = some "Please fill in all fields") := by
  constructor
  · unfold validateJoinForm
    split_ifs with h1 h2 h3 h4 <;> simp <;> omega
  · intro h
    unfold validateJoinForm
    rw [if_pos h]

theorem wsRunCloses_min :
    ∀ k n : ℕ, wsRunCloses ⟨n⟩ k = min k (maxReconnectAttempts - n)
  | 0, n => by simp [wsRunCloses]
  | k + 1, n => by
    show (if (wsOnClose ⟨n⟩).2.isSome then 1 else 0) + wsRunCloses (wsOnClose ⟨n⟩).1 k = _
    have h5 : maxReconnectAttempts = 5 := rfl
    by_cases h : n < maxReconnectAttempts
    · have hcl : wsOnClose ⟨n⟩ = (⟨n + 1⟩, some (min (1000 * 2 ^ (n + 1)) 10000)) := by
        simp [wsOnClose, h]
      rw [hcl]
      simp only [Option.isSome_some, if_true]
      rw [wsRunCloses_min k (n + 1)]
      rw [h5] at h ⊢
      omega
    · have hcl : wsOnClose ⟨n⟩ = (⟨n⟩, none) := by
        simp [wsOnClose, h]
      rw [hcl]
      simp only [Option.isSome_none, Bool.false_eq_true, if_false]
      rw [wsRunCloses_min k n]
      rw [h5] at h ⊢
      omega

/-- C10: after a close, at most 5 reconnection attempts are scheduled
(over k consecutive closes from a fresh connection, exactly min(k, 5)
reconnects get scheduled); the delay before attempt n (counter value
n-1 before the close) is exactly min(1000 * 2^n, 10000) ms; and a
successful reconnection resets the attempt counter to 0. -/
theorem c10_reconnect_policy :
    (∀ n : ℕ, n < maxReconnectAttempts →
        wsOnClose ⟨n⟩ = (⟨n + 1⟩, some (min (1000 * 2 ^ (n + 1)) 10000))) ∧
    (∀ n : ℕ, maxReconnectAttempts ≤ n → wsOnClose ⟨n⟩ = (⟨n⟩, none)) ∧
    (∀ k : ℕ, wsRunCloses ⟨0⟩ k = min k maxReconnectAttempts) ∧
    (∀ s : WSState, wsOnOpen s = ⟨0⟩) := by
  refine ⟨?_, ?_, ?_, ?_⟩
  · intro n h
    simp [wsOnClose, h]
  · intro n h
    simp [wsOnClose, Nat.not_lt.mpr h]
  · intro k
    simpa using wsRunCloses_min k 0
  · intro s
    rfl

theorem c10_witness :
    wsOnClose ⟨1⟩ = (⟨2⟩, some (min (1000 * 2 ^ 2) 10000)) ∧
    wsOnClose ⟨5⟩ = (⟨5⟩, none) ∧
    wsRunCloses ⟨0⟩ 7 = min 7 maxReconnectAttempts ∧
    wsOnOpen ⟨3⟩ = ⟨0⟩ :=
  ⟨c10_reconnect_policy.1 1 (by decide),
   c10_reconnect_policy.2.1 5 (by decide),
   c10_reconnect_policy.2.2.1 7,
   c10_reconnect_policy.2.2.2 ⟨3⟩⟩

theorem c9_witness :
    (validateJoinForm "ABCD" "bob" = none ↔
      ("ABCD".length ≠ 0 ∧ 4 ≤ "ABCD".length ∧
       "bob".length ≠ 0 ∧ 2 ≤ "bob".length ∧ "bob".length ≤ 20)) ∧
    validateJoinForm "" "bob" = some "Please fill in all fields" :=
  ⟨(c9_validateJoinForm "ABCD" "bob").1,
   (c9_validateJoinForm "" "bob").2 (Or.inl rfl)⟩
